import Mathlib

/-!
Shallow embedding of the order-fulfillment and stock-reconciliation core of
the `estoque-pedidos` repository.

The authoritative implementation is `database_config_v2.py`: its operational
functions (`create_product`, `add_entry`, `add_dispatch`, `create_order`,
`fulfill_order`) each open one PostgreSQL transaction, run a fixed sequence of
SQL statements and commit; any exception rolls the transaction back.  We embed
the database as a record of lists of rows, each operation as a pure function
`Db -> Except Err (id, Db)`, and model the CHECK / FOREIGN KEY / UNIQUE
constraints declared in the module's own DDL (`POSTGRES_DDL_V2`) as explicit
guards, since the Python layer relies on them (e.g. `fulfill_order` has no
`quantity <= 0` test of its own; the `order_fulfillments.fulfilled_quantity > 0`
CHECK rejects it).  SQL statements are modelled by their statement-level
semantics against this module's own schema: a bare
`UPDATE ... WHERE product_id = x` touches exactly the rows satisfying the
WHERE clause (zero rows means no change), and `add_entry`'s
`INSERT ... ON CONFLICT (product_id) DO UPDATE` has no unique arbiter index
to match — `POSTGRES_DDL_V2` gives `current_stock.product_id` only the plain
index `idx_current_stock_product` — so PostgreSQL rejects that statement
unconditionally (error 42P10) and `add_entry` always rolls back.  An error
result carries no state: this is the rollback performed by `get_connection`.

`Render.create_product` embeds the resolve-or-create variant from
`database_config_render.py`: it tries the INSERT and, on a unique violation,
re-queries `SELECT id FROM products WHERE ean = %s OR reference = %s` — but
the connection has `autocommit = False` and no rollback is issued between the
failed INSERT and that SELECT, so the re-query runs on the aborted
transaction and psycopg2 raises InFailedSqlTransaction: the duplicate path
raises instead of returning the existing id.

Columns that are written but never read by any modelled operation
(`unit_cost DECIMAL`, the `current_stock.id` serial) are omitted.  Timestamps
(`NOW()`) are modelled by an explicit `now : Nat` argument.
-/

/-- Order status, the four values allowed by the `orders.status` CHECK
constraint: `'Pendente'`, `'Parcial'`, `'Atendido'`, `'Cancelado'`. -/
inductive Status where
  | pendente
  | parcial
  | atendido
  | cancelado
deriving DecidableEq, Repr

/-- Failure outcomes of one transaction: the two `ValueError`s raised by the
Python layer of `fulfill_order`, the `ValueError` of `_get_id`, the database
constraint violations declared in `POSTGRES_DDL_V2`, and the two PostgreSQL
protocol errors the source runs into — 42P10 (`ON CONFLICT` names no unique
arbiter index, hit by every `add_entry` call) and InFailedSqlTransaction (a
query on an aborted transaction, hit by render's `create_product` duplicate
path). -/
inductive Err where
  | notFound (table : String) (key : String)
  | orderNotFound
  | exceedsPending (maxAllowed : Int)
  | invalidQuantity (table : String)
  | fkViolation (table : String)
  | uniqueViolation
  | negativeDelivered
  | onConflictNoArbiter
  | inFailedTransaction
deriving DecidableEq, Repr

/-- The human-readable detail string attached to each failure (for the two
`ValueError`s these are the exact f-strings of the source). -/
def Err.message : Err → String
  | .notFound table key => "Não encontrado em " ++ table ++ ": " ++ key
  | .orderNotFound => "Pedido não encontrado"
  | .exceedsPending maxAllowed => "Quantidade excede o pedido. Máximo: " ++ toString maxAllowed
  | .invalidQuantity table => "new row for relation " ++ table ++ " violates check constraint"
  | .fkViolation table => "insert on table " ++ table ++ " violates foreign key constraint"
  | .uniqueViolation => "duplicate key value violates unique constraint"
  | .negativeDelivered => "new row for relation orders violates check constraint"
  | .onConflictNoArbiter =>
      "there is no unique or exclusion constraint matching the ON CONFLICT specification"
  | .inFailedTransaction =>
      "current transaction is aborted, commands ignored until end of transaction block"

/-- A row of `products`. -/
structure Product where
  id : Nat
  ean : Option String
  reference : Option String
  name : String
  description : Option String
  sectorId : Nat
  createdAt : Nat
  updatedAt : Nat
deriving DecidableEq, Repr

/-- A row of `current_stock` (the per-product materialized stock counter). -/
structure StockRow where
  productId : Nat
  totalQuantity : Int
  lastUpdated : Nat
deriving DecidableEq, Repr

/-- A row of `entries` (immutable receipt fact). -/
structure EntryFact where
  ts : Nat
  supplier : String
  productId : Nat
  quantity : Int
  note : Option String
deriving DecidableEq, Repr

/-- A row of `dispatches` (immutable outbound fact). -/
structure DispatchFact where
  ts : Nat
  unitId : Nat
  productId : Nat
  quantity : Int
  outBy : String
  note : Option String
deriving DecidableEq, Repr

/-- A row of `orders`.  `pending_quantity` is a generated column
(`requested_quantity - delivered_quantity`) and is therefore not stored. -/
structure Order where
  id : Nat
  store : String
  productId : Nat
  requestedQuantity : Int
  deliveredQuantity : Int
  requestedBy : String
  notes : Option String
  status : Status
  createdAt : Nat
  updatedAt : Nat
deriving DecidableEq, Repr

/-- The generated column `pending_quantity`. -/
def Order.pendingQuantity (o : Order) : Int :=
  o.requestedQuantity - o.deliveredQuantity

/-- A row of `order_fulfillments` (immutable delivery fact). -/
structure Fulfillment where
  orderId : Nat
  fulfilledQuantity : Int
  fulfilledBy : String
  notes : Option String
  createdAt : Nat
deriving DecidableEq, Repr

/-- The database state: one list of rows per table, in insertion order
(SERIAL ids are assigned as list length + 1; no modelled operation deletes
rows).  `units` and `sectors` hold (id, name) pairs. -/
structure Db where
  units : List (Nat × String)
  sectors : List (Nat × String)
  products : List Product
  stock : List StockRow
  entries : List EntryFact
  dispatches : List DispatchFact
  orders : List Order
  fulfillments : List Fulfillment
deriving DecidableEq, Repr

/-- Seed list `UNITS_SEED` of the source module. -/
def UNITS_SEED : List String :=
  ["MDC - Carioca", "MDC - Madureira", "MDC - Bonsucesso",
   "MDC - Nilópolis", "MDC - Santa Cruz", "MDC - Mesquita", "MDC - CD"]

/-- Seed list `SECTORS_SEED` of the source module. -/
def SECTORS_SEED : List String :=
  ["Bijuteria", "Eletrônicos", "Conveniência", "Papelaria", "Variedades",
   "Utilidades", "Utensílios", "CaMeBa", "Brinquedos", "Decoração", "Pet",
   "Led", "Natal", "Carnaval"]

/-- The state produced by `init_database`: seeded units and sectors, every
other table empty. -/
def initDb : Db where
  units := (List.range' 1 UNITS_SEED.length).zip UNITS_SEED
  sectors := (List.range' 1 SECTORS_SEED.length).zip SECTORS_SEED
  products := []
  stock := []
  entries := []
  dispatches := []
  orders := []
  fulfillments := []

/-- Helper `_get_id(conn, table, name)`: look a name up in `units`/`sectors`,
raising `ValueError` ("Não encontrado em {table}: {name}") when absent. -/
def _get_id (table : List (Nat × String)) (tableName : String) (key : String) :
    Except Err Nat :=
  match table.find? (fun row => row.2 == key) with
  | some row => .ok row.1
  | none => .error (.notFound tableName key)

/-- SQL `=` comparison of two nullable key columns: true only when both are
non-NULL and equal (used for the `products.ean` / `products.reference` UNIQUE
constraints and for render's `WHERE ean = %s OR reference = %s` re-query). -/
def sameKey : Option String → Option String → Bool
  | some a, some b => a == b
  | _, _ => false

/-- Is `pid` the id of an existing product (the FK check of
`entries`/`dispatches`/`orders` towards `products`)? -/
def productExists (db : Db) (pid : Nat) : Bool :=
  db.products.any (fun p => p.id == pid)

/-- The stock write of `add_dispatch` and `fulfill_order`:
`UPDATE current_stock SET total_quantity = total_quantity - q,
last_updated = NOW() WHERE product_id = pid` — touches exactly the matching
rows, and is a silent no-op when there is none. -/
def subStockRow (pid : Nat) (q : Int) (now : Nat) (r : StockRow) : StockRow :=
  if r.productId == pid then
    { r with totalQuantity := r.totalQuantity - q, lastUpdated := now }
  else r

def stockSub (stock : List StockRow) (pid : Nat) (q : Int) (now : Nat) :
    List StockRow :=
  stock.map (subStockRow pid q now)

/-- Function `create_product` of `database_config_v2.py`: resolve the sector, INSERT
the product (UNIQUE on `ean` and on `reference`), INSERT a zero
`current_stock` row, commit. -/
def create_product (db : Db) (ean reference : Option String) (pname : String)
    (sector : String) (description : Option String) (now : Nat) :
    Except Err (Nat × Db) :=
  match _get_id db.sectors "sectors" sector with
  | .error e => .error e
  | .ok sectorId =>
    if db.products.any (fun p => sameKey p.ean ean || sameKey p.reference reference) then
      .error .uniqueViolation
    else
      let product_id := db.products.length + 1
      .ok (product_id,
        { db with
            products := db.products ++
              [⟨product_id, ean, reference, pname, description, sectorId, now, now⟩],
            stock := db.stock ++ [⟨product_id, 0, now⟩] })

/-- Function `add_entry` of `database_config_v2.py`: INSERT the entry fact
(CHECK `quantity > 0`, FK on `product_id`), then
`INSERT INTO current_stock (product_id, total_quantity) VALUES (%s, %s)
ON CONFLICT (product_id) DO UPDATE SET total_quantity = ... + q`.
The DDL of this very module declares no unique constraint or unique index on
`current_stock.product_id` (only the plain index `idx_current_stock_product`),
and PostgreSQL rejects an `ON CONFLICT (product_id)` clause without a unique
arbiter index unconditionally (error 42P10), so when the first INSERT passes
its checks the second statement always raises and the whole transaction rolls
back: `add_entry` never commits anything. -/
def add_entry (db : Db) (supplier : String) (product_id : Nat) (quantity : Int)
    (note : Option String) (now : Nat) : Except Err (Nat × Db) :=
  if quantity ≤ 0 then .error (.invalidQuantity "entries")
  else if productExists db product_id then .error .onConflictNoArbiter
  else .error (.fkViolation "entries")

/-- Function `add_dispatch` of `database_config_v2.py`: resolve the unit via `_get_id`
(raises before any write), INSERT the dispatch fact (CHECK `quantity > 0`,
FK on `product_id`), decrement `current_stock`, commit. -/
def add_dispatch (db : Db) (unit : String) (product_id : Nat) (quantity : Int)
    (out_by : String) (note : Option String) (now : Nat) : Except Err (Nat × Db) :=
  match _get_id db.units "units" unit with
  | .error e => .error e
  | .ok unit_id =>
    if quantity ≤ 0 then .error (.invalidQuantity "dispatches")
    else if productExists db product_id then
      .ok (db.dispatches.length + 1,
        { db with
            dispatches := db.dispatches ++
              [⟨now, unit_id, product_id, quantity, out_by, note⟩],
            stock := stockSub db.stock product_id quantity now })
    else .error (.fkViolation "dispatches")

/-- Function `create_order` of `database_config_v2.py`: one INSERT into `orders`
(CHECK `requested_quantity > 0`, FK on `product_id`); `delivered_quantity`
defaults to 0 and `status` to `'Pendente'`. -/
def create_order (db : Db) (store : String) (product_id : Nat) (quantity : Int)
    (requested_by : String) (notes : Option String) (now : Nat) :
    Except Err (Nat × Db) :=
  if quantity ≤ 0 then .error (.invalidQuantity "orders")
  else if productExists db product_id then
    let order_id := db.orders.length + 1
    .ok (order_id,
      { db with
          orders := db.orders ++
            [⟨order_id, store, product_id, quantity, 0, requested_by, notes,
              Status.pendente, now, now⟩] })
  else .error (.fkViolation "orders")

/-- The `UPDATE orders SET delivered_quantity = delivered_quantity + q,
status = CASE WHEN delivered_quantity + q >= requested_quantity THEN 'Atendido'
ELSE 'Parcial' END, updated_at = NOW() WHERE id = order_id` of `fulfill_order`,
as the per-row transformer (every column reference on the right-hand side of a
SET reads the old row). -/
def fulfillOrderRow (order_id : Nat) (quantity : Int) (now : Nat) (r : Order) :
    Order :=
  if r.id == order_id then
    { r with
        deliveredQuantity := r.deliveredQuantity + quantity,
        status :=
          if r.deliveredQuantity + quantity ≥ r.requestedQuantity
          then Status.atendido else Status.parcial,
        updatedAt := now }
  else r

/-- Function `fulfill_order` of `database_config_v2.py`:
SELECT the order (raise "Pedido não encontrado" when absent); raise
"Quantidade excede o pedido. Máximo: {requested - delivered}" when
`delivered + quantity > requested`; INSERT the fulfillment fact (CHECK
`fulfilled_quantity > 0`); UPDATE the order (`delivered_quantity += quantity`,
status CASE on `delivered_quantity + quantity >= requested_quantity`, CHECK
`delivered_quantity >= 0`, `updated_at = NOW()`); decrement `current_stock`
for the order's product; commit. -/
def fulfill_order (db : Db) (order_id : Nat) (quantity : Int)
    (fulfilled_by : String) (notes : Option String) (now : Nat) :
    Except Err (Nat × Db) :=
  match db.orders.find? (fun o => o.id == order_id) with
  | none => .error .orderNotFound
  | some o =>
    if o.deliveredQuantity + quantity > o.requestedQuantity then
      .error (.exceedsPending (o.requestedQuantity - o.deliveredQuantity))
    else if quantity ≤ 0 then .error (.invalidQuantity "order_fulfillments")
    else if o.deliveredQuantity + quantity < 0 then .error .negativeDelivered
    else
      .ok (db.fulfillments.length + 1,
        { db with
            fulfillments := db.fulfillments ++
              [⟨order_id, quantity, fulfilled_by, notes, now⟩],
            orders := db.orders.map (fulfillOrderRow order_id quantity now),
            stock := stockSub db.stock o.productId quantity now })

/-- Function `create_product` of `database_config_render.py` (resolve-or-create):
resolve the sector first (raise "Setor não encontrado" when absent), then try
the INSERT.  A unique violation happens exactly when some existing product
matches the supplied `ean` or `reference` under SQL `=` (NULLs never match).
The except-branch then runs
`SELECT id FROM products WHERE ean = %s OR reference = %s` on the same
connection — but the failed INSERT left the open transaction in the aborted
state and no rollback is issued first, so that SELECT raises
InFailedSqlTransaction, which escapes the `except Exception` block already
being handled: the duplicate path fails instead of returning the existing
id (contradicting the function's own docstring "se existir, retorna o id
existente"). -/
def Render.create_product (db : Db) (ean reference : Option String)
    (pname : String) (sector : String) (description : Option String)
    (now : Nat) : Except Err (Nat × Db) :=
  match db.sectors.find? (fun row => row.2 == sector) with
  | none => .error (.notFound "sectors" sector)
  | some srow =>
    match db.products.find? (fun p => sameKey p.ean ean || sameKey p.reference reference) with
    | some _ => .error .inFailedTransaction
    | none =>
      let product_id := db.products.length + 1
      .ok (product_id,
        { db with
            products := db.products ++
              [⟨product_id, ean, reference, pname, description, srow.1, now, now⟩],
            stock := db.stock ++ [⟨product_id, 0, now⟩] })

/-- One call into the v2 module, with its arguments. -/
inductive Op where
  | createProduct (ean reference : Option String) (pname sector : String)
      (description : Option String)
  | addEntry (supplier : String) (product_id : Nat) (quantity : Int)
      (note : Option String)
  | addDispatch (unit : String) (product_id : Nat) (quantity : Int)
      (out_by : String) (note : Option String)
  | createOrder (store : String) (product_id : Nat) (quantity : Int)
      (requested_by : String) (notes : Option String)
  | fulfillOrder (order_id : Nat) (quantity : Int) (fulfilled_by : String)
      (notes : Option String)
deriving DecidableEq, Repr

/-- Run one call, keeping only the resulting state. -/
def step (db : Db) (op : Op) (now : Nat) : Except Err Db :=
  match op with
  | .createProduct e r n s d => (create_product db e r n s d now).map Prod.snd
  | .addEntry s pid q note => (add_entry db s pid q note now).map Prod.snd
  | .addDispatch u pid q ob note => (add_dispatch db u pid q ob note now).map Prod.snd
  | .createOrder st pid q rb notes => (create_order db st pid q rb notes now).map Prod.snd
  | .fulfillOrder oid q fb notes => (fulfill_order db oid q fb notes now).map Prod.snd

/-- A failed call rolls its transaction back and leaves the database as it
was; a successful one commits its new state. -/
def execStep (db : Db) (op : Op) (now : Nat) : Db :=
  match step db op now with
  | .ok db2 => db2
  | .error _ => db

/-- Run a finite sequence of calls, each with its wall-clock time. -/
def exec (db : Db) : List (Op × Nat) → Db
  | [] => db
  | (op, now) :: rest => exec (execStep db op now) rest

/-- Sum of `f` over the elements of `l` selected by `p`. -/
def sumBy {α : Type} (l : List α) (p : α → Bool) (f : α → Int) : Int :=
  ((l.filter p).map f).sum

/-- Sum of the recorded entry quantities for one product. -/
def entriesSum (db : Db) (pid : Nat) : Int :=
  sumBy db.entries (fun e => e.productId == pid) (fun e => e.quantity)

/-- Sum of the recorded dispatch quantities for one product. -/
def dispatchesSum (db : Db) (pid : Nat) : Int :=
  sumBy db.dispatches (fun d => d.productId == pid) (fun d => d.quantity)

/-- The product an order id refers to (via the first matching order row). -/
def orderProductL (orders : List Order) (oid : Nat) : Option Nat :=
  (orders.find? (fun o => o.id == oid)).map Order.productId

/-- Sum of the fulfillment quantities charged against one product (each
fulfillment fact reaches its product through its order). -/
def fulfillSumProduct (db : Db) (pid : Nat) : Int :=
  sumBy db.fulfillments (fun f => orderProductL db.orders f.orderId == some pid)
    (fun f => f.fulfilledQuantity)

/-- Sum of the fulfillment quantities recorded against one order
(the total of `get_order_fulfillment_history`). -/
def fulfillSumOrder (db : Db) (oid : Nat) : Int :=
  sumBy db.fulfillments (fun f => f.orderId == oid) (fun f => f.fulfilledQuantity)

/-- Total stock recorded for one product (sum over its `current_stock` rows;
in every reachable state there is at most one such row). -/
def stockTotal (db : Db) (pid : Nat) : Int :=
  sumBy db.stock (fun r => r.productId == pid) (fun r => r.totalQuantity)

/-- The status derivation table of spec §3: `Pendente` at zero delivered,
`Parcial` strictly between, `Atendido` at the requested quantity. -/
def deriveStatus (delivered requested : Int) : Status :=
  if delivered = 0 then .pendente
  else if delivered < requested then .parcial
  else .atendido

/-- A concrete run used to exercise the operations: create a product, attempt
an entry of 50 (which fails and rolls back — every `add_entry` call hits the
42P10 error), record a dispatch of 20, an order for 10 and a fulfillment of 4
(spec §8 scenarios A/B). -/
def opsMid : List (Op × Nat) :=
  [(Op.createProduct (some "123") (some "R1") "Prod X" "Bijuteria" none, 1),
   (Op.addEntry "Acme" 1 50 none, 2),
   (Op.addDispatch "MDC - CD" 1 20 "bob" none, 3),
   (Op.createOrder "S1" 1 10 "alice" none, 4),
   (Op.fulfillOrder 1 4 "bob" none, 5)]

/-- The state after `opsMid`: one product with stock -20 - 4 = -24 (the entry
never committed; negative stock is permitted, spec §9), one order with
`delivered = 4` of 10 (status `Parcial`), one fulfillment fact, no entry
facts. -/
def dbMid : Db := exec initDb opsMid

/-- State `dbMid` with its stock row removed: a product, order and history exist
but no `current_stock` row (the situation probed by the silent-no-op UPDATE
behaviour of dispatch and fulfillment). -/
def dbNoStock : Db := { dbMid with stock := [] }

/-- Invariants of every state reachable from `initDb` through the five
operations: SERIAL ids are `1..n` in insertion order, every product has
exactly the `current_stock` rows aligned with the product list, every fact
passes its foreign key, each stock counter is the running
entries − dispatches − fulfillments balance of its product, and every order
satisfies the bounds, status-derivation and history-sum properties of the
spec. -/
structure DbInv (db : Db) : Prop where
  productIds : db.products.map Product.id = List.range' 1 db.products.length
  orderIds : db.orders.map Order.id = List.range' 1 db.orders.length
  stockIds : db.stock.map StockRow.productId = db.products.map Product.id
  entriesFk : ∀ e ∈ db.entries, e.productId ∈ db.products.map Product.id
  dispatchesFk : ∀ d ∈ db.dispatches, d.productId ∈ db.products.map Product.id
  ordersFk : ∀ o ∈ db.orders, o.productId ∈ db.products.map Product.id
  fulfillmentsFk : ∀ f ∈ db.fulfillments, f.orderId ∈ db.orders.map Order.id
  conservation : ∀ r ∈ db.stock, r.totalQuantity =
    entriesSum db r.productId - dispatchesSum db r.productId -
      fulfillSumProduct db r.productId
  orderRange : ∀ o ∈ db.orders,
    0 < o.requestedQuantity ∧ 0 ≤ o.deliveredQuantity ∧
      o.deliveredQuantity ≤ o.requestedQuantity
  orderStatusDerived : ∀ o ∈ db.orders,
    o.status = deriveStatus o.deliveredQuantity o.requestedQuantity
  orderHistorySum : ∀ o ∈ db.orders, fulfillSumOrder db o.id = o.deliveredQuantity

theorem inv_initDb : DbInv initDb := by
  constructor <;> simp [initDb]

theorem sumBy_append_singleton {α : Type} (l : List α) (a : α) (p : α → Bool)
    (f : α → Int) :
    sumBy (l ++ [a]) p f = sumBy l p f + (if p a then f a else 0) := by
  simp only [sumBy, List.filter_append, List.filter_singleton, List.map_append,
    List.sum_append]
  cases h : p a <;> simp [h]

theorem sumBy_eq_zero {α : Type} {l : List α} {p : α → Bool} (f : α → Int)
    (h : ∀ a ∈ l, p a = false) : sumBy l p f = 0 := by
  induction l with
  | nil => rfl
  | cons a l ih =>
    simp only [sumBy, List.filter_cons, h a (by simp)]
    exact ih (fun b hb => h b (by simp [hb]))

theorem sumBy_congr {α : Type} {l : List α} {p q : α → Bool} (f : α → Int)
    (h : ∀ a ∈ l, p a = q a) : sumBy l p f = sumBy l q f := by
  simp only [sumBy, List.filter_congr h]

theorem productExists_iff {db : Db} {pid : Nat} :
    productExists db pid = true ↔ pid ∈ db.products.map Product.id := by
  simp only [productExists, List.any_eq_true, List.mem_map, beq_iff_eq]

theorem orderProductL_append_left {orders tail : List Order} {oid : Nat}
    (h : oid ∈ orders.map Order.id) :
    orderProductL (orders ++ tail) oid = orderProductL orders oid := by
  simp only [orderProductL, List.find?_append]
  obtain ⟨o, ho, rfl⟩ := List.mem_map.mp h
  cases hf : orders.find? (fun x => x.id == o.id) with
  | some x => simp
  | none =>
    exfalso
    have := List.find?_eq_none.mp hf o ho
    simp at this

theorem orderProductL_map {g : Order → Order} (hid : ∀ o, (g o).id = o.id)
    (hpid : ∀ o, (g o).productId = o.productId) (orders : List Order) (oid : Nat) :
    orderProductL (orders.map g) oid = orderProductL orders oid := by
  simp only [orderProductL, List.find?_map]
  have hp : ((fun o : Order => o.id == oid) ∘ g) = fun o : Order => o.id == oid := by
    funext o; simp [Function.comp, hid o]
  rw [hp]
  cases hf : orders.find? (fun o => o.id == oid) with
  | some x => simp [hpid x]
  | none => simp

theorem inv_create_product {db : Db} (h : DbInv db) {ean reference : Option String}
    {pname sector : String} {description : Option String} {now : Nat}
    {pid : Nat} {db2 : Db}
    (hok : create_product db ean reference pname sector description now = .ok (pid, db2)) :
    DbInv db2 := by
  unfold create_product at hok
  split at hok
  · exact absurd hok (by simp)
  · split at hok
    · exact absurd hok (by simp)
    · simp only [Except.ok.injEq, Prod.mk.injEq] at hok
      obtain ⟨hpid, hdb⟩ := hok
      subst hdb
      refine ⟨?_, ?_, ?_, ?_, ?_, ?_, ?_, ?_, ?_, ?_, ?_⟩
      · simp only [List.map_append, List.map_cons, List.map_nil,
          List.length_append, List.length_cons, List.length_nil]
        rw [h.productIds, List.range'_1_concat]
        simp [Nat.add_comm]
      · exact h.orderIds
      · simp only [List.map_append, List.map_cons, List.map_nil]
        rw [h.stockIds]
      · intro e he
        rw [List.map_append]
        exact List.mem_append_left _ (h.entriesFk e he)
      · intro d hd
        rw [List.map_append]
        exact List.mem_append_left _ (h.dispatchesFk d hd)
      · intro o ho
        rw [List.map_append]
        exact List.mem_append_left _ (h.ordersFk o ho)
      · exact h.fulfillmentsFk
      · intro r hr
        rw [List.mem_append] at hr
        rcases hr with hr | hr
        · exact h.conservation r hr
        · simp only [List.mem_singleton] at hr
          subst hr
          have hE : entriesSum db (db.products.length + 1) = 0 := by
            apply sumBy_eq_zero
            intro e he
            have hme := h.entriesFk e he
            rw [h.productIds] at hme
            have := List.mem_range'_1.mp hme
            simp only [beq_eq_false_iff_ne, ne_eq]
            omega
          have hD : dispatchesSum db (db.products.length + 1) = 0 := by
            apply sumBy_eq_zero
            intro d hd
            have hmd := h.dispatchesFk d hd
            rw [h.productIds] at hmd
            have := List.mem_range'_1.mp hmd
            simp only [beq_eq_false_iff_ne, ne_eq]
            omega
          have hF : fulfillSumProduct db (db.products.length + 1) = 0 := by
            apply sumBy_eq_zero
            intro f hf
            cases hfind : db.orders.find? (fun o => o.id == f.orderId) with
            | none => simp [orderProductL, hfind]
            | some o2 =>
              have ho2 : o2 ∈ db.orders := List.mem_of_find?_eq_some hfind
              have hmo := h.ordersFk o2 ho2
              rw [h.productIds] at hmo
              have := List.mem_range'_1.mp hmo
              simp only [orderProductL, hfind, Option.map_some',
                beq_eq_false_iff_ne, ne_eq, Option.some.injEq]
              omega
          show (0 : Int) = entriesSum db (db.products.length + 1) -
            dispatchesSum db (db.products.length + 1) -
            fulfillSumProduct db (db.products.length + 1)
          rw [hE, hD, hF]
          simp
      · exact h.orderRange
      · exact h.orderStatusDerived
      · exact h.orderHistorySum

theorem subStockRow_productId (pid : Nat) (q : Int) (now : Nat) (r : StockRow) :
    (subStockRow pid q now r).productId = r.productId := by
  unfold subStockRow; split <;> rfl

theorem fulfillOrderRow_id (order_id : Nat) (quantity : Int) (now : Nat) (r : Order) :
    (fulfillOrderRow order_id quantity now r).id = r.id := by
  unfold fulfillOrderRow; split <;> rfl

theorem fulfillOrderRow_productId (order_id : Nat) (quantity : Int) (now : Nat)
    (r : Order) :
    (fulfillOrderRow order_id quantity now r).productId = r.productId := by
  unfold fulfillOrderRow; split <;> rfl

theorem fulfillOrderRow_of_eq {order_id : Nat} (quantity : Int) (now : Nat)
    {r : Order} (hr : r.id = order_id) :
    fulfillOrderRow order_id quantity now r =
      { r with
          deliveredQuantity := r.deliveredQuantity + quantity,
          status :=
            if r.deliveredQuantity + quantity ≥ r.requestedQuantity
            then Status.atendido else Status.parcial,
          updatedAt := now } := by
  unfold fulfillOrderRow
  rw [if_pos (by simp [hr])]

theorem fulfillOrderRow_of_ne {order_id : Nat} (quantity : Int) (now : Nat)
    {r : Order} (hr : r.id ≠ order_id) :
    fulfillOrderRow order_id quantity now r = r := by
  unfold fulfillOrderRow
  rw [if_neg (by simp [hr])]

theorem stockSub_map_productId (stock : List StockRow) (pid : Nat) (q : Int)
    (now : Nat) :
    (stockSub stock pid q now).map StockRow.productId =
      stock.map StockRow.productId := by
  unfold stockSub
  rw [List.map_map]
  have hcomp : (StockRow.productId ∘ subStockRow pid q now) = StockRow.productId :=
    funext fun r => subStockRow_productId pid q now r
  rw [hcomp]

theorem inv_add_entry {db : Db} (_h : DbInv db) {supplier : String}
    {product_id : Nat} {quantity : Int} {note : Option String} {now : Nat}
    {eid : Nat} {db2 : Db}
    (hok : add_entry db supplier product_id quantity note now = .ok (eid, db2)) :
    DbInv db2 := by
  unfold add_entry at hok
  split at hok
  · exact absurd hok (by simp)
  · split at hok
    · exact absurd hok (by simp)
    · exact absurd hok (by simp)

theorem inv_add_dispatch {db : Db} (h : DbInv db) {unit : String}
    {product_id : Nat} {quantity : Int} {out_by : String} {note : Option String}
    {now : Nat} {did : Nat} {db2 : Db}
    (hok : add_dispatch db unit product_id quantity out_by note now = .ok (did, db2)) :
    DbInv db2 := by
  unfold add_dispatch at hok
  split at hok
  · exact absurd hok (by simp)
  · rename_i unit_id heq
    split at hok
    · exact absurd hok (by simp)
    · split at hok
      · rename_i hq hex
        have hmem : product_id ∈ db.products.map Product.id := productExists_iff.mp hex
        simp only [Except.ok.injEq, Prod.mk.injEq] at hok
        obtain ⟨hdid, hdb⟩ := hok
        subst hdb
        have hD : ∀ pid2,
            sumBy (db.dispatches ++ [⟨now, unit_id, product_id, quantity, out_by, note⟩])
              (fun d => d.productId == pid2) (fun d => d.quantity) =
            dispatchesSum db pid2 + (if product_id == pid2 then quantity else 0) := by
          intro pid2
          rw [sumBy_append_singleton]
          rfl
        refine ⟨h.productIds, h.orderIds, ?_, h.entriesFk, ?_, h.ordersFk,
          h.fulfillmentsFk, ?_, h.orderRange, h.orderStatusDerived, h.orderHistorySum⟩
        · show (stockSub db.stock product_id quantity now).map StockRow.productId =
            db.products.map Product.id
          rw [stockSub_map_productId, h.stockIds]
        · intro d hd
          rw [List.mem_append] at hd
          rcases hd with hd | hd
          · exact h.dispatchesFk d hd
          · simp only [List.mem_singleton] at hd
            subst hd
            exact hmem
        · intro r2 hr2
          obtain ⟨r, hr, rfl⟩ := List.mem_map.mp hr2
          have hc := h.conservation r hr
          by_cases hrp : r.productId = product_id
          · have hrow : subStockRow product_id quantity now r =
                { r with totalQuantity := r.totalQuantity - quantity,
                         lastUpdated := now } := by
              unfold subStockRow; rw [if_pos (by simp [hrp])]
            rw [hrow]
            show r.totalQuantity - quantity =
              entriesSum db r.productId -
                sumBy (db.dispatches ++ [⟨now, unit_id, product_id, quantity, out_by, note⟩])
                  (fun d => d.productId == r.productId) (fun d => d.quantity)
              - fulfillSumProduct db r.productId
            rw [hD r.productId]
            have hif : (product_id == r.productId) = true := by simp [hrp]
            rw [hif, if_pos rfl]
            omega
          · have hrow : subStockRow product_id quantity now r = r := by
              unfold subStockRow
              rw [if_neg (by simp [hrp])]
            rw [hrow]
            show r.totalQuantity =
              entriesSum db r.productId -
                sumBy (db.dispatches ++ [⟨now, unit_id, product_id, quantity, out_by, note⟩])
                  (fun d => d.productId == r.productId) (fun d => d.quantity)
              - fulfillSumProduct db r.productId
            rw [hD r.productId]
            have hif : (product_id == r.productId) = false := by
              simp only [beq_eq_false_iff_ne, ne_eq]
              exact fun hh => hrp hh.symm
            rw [hif]
            simp only [Bool.false_eq_true, if_false, add_zero]
            exact hc
      · exact absurd hok (by simp)

theorem inv_create_order {db : Db} (h : DbInv db) {store : String}
    {product_id : Nat} {quantity : Int} {requested_by : String}
    {notes : Option String} {now : Nat} {oid : Nat} {db2 : Db}
    (hok : create_order db store product_id quantity requested_by notes now =
      .ok (oid, db2)) :
    DbInv db2 := by
  unfold create_order at hok
  split at hok
  · exact absurd hok (by simp)
  · split at hok
    · rename_i hq hex
      have hmem : product_id ∈ db.products.map Product.id := productExists_iff.mp hex
      simp only [Except.ok.injEq, Prod.mk.injEq] at hok
      obtain ⟨hoid, hdb⟩ := hok
      subst hdb
      have hfresh : ∀ f ∈ db.fulfillments,
          (f.orderId == db.orders.length + 1) = false := by
        intro f hf
        have hm := h.fulfillmentsFk f hf
        rw [h.orderIds] at hm
        have := List.mem_range'_1.mp hm
        simp only [beq_eq_false_iff_ne, ne_eq]
        omega
      refine ⟨h.productIds, ?_, h.stockIds, h.entriesFk, h.dispatchesFk, ?_,
        ?_, ?_, ?_, ?_, ?_⟩
      · simp only [List.map_append, List.map_cons, List.map_nil,
          List.length_append, List.length_cons, List.length_nil]
        rw [h.orderIds, List.range'_1_concat]
        simp [Nat.add_comm]
      · intro o ho
        rw [List.mem_append] at ho
        rcases ho with ho | ho
        · exact h.ordersFk o ho
        · simp only [List.mem_singleton] at ho
          subst ho
          exact hmem
      · intro f hf
        rw [List.map_append]
        exact List.mem_append_left _ (h.fulfillmentsFk f hf)
      · intro r hr
        have hc := h.conservation r hr
        show r.totalQuantity = entriesSum db r.productId - dispatchesSum db r.productId -
          sumBy db.fulfillments
            (fun f => orderProductL
              (db.orders ++ [⟨db.orders.length + 1, store, product_id, quantity, 0,
                requested_by, notes, Status.pendente, now, now⟩]) f.orderId ==
              some r.productId)
            (fun f => f.fulfilledQuantity)
        have hpt : ∀ f ∈ db.fulfillments,
            (orderProductL
              (db.orders ++ [⟨db.orders.length + 1, store, product_id, quantity, 0,
                requested_by, notes, Status.pendente, now, now⟩]) f.orderId ==
              some r.productId) =
            (orderProductL db.orders f.orderId == some r.productId) := by
          intro f hf
          rw [orderProductL_append_left (h.fulfillmentsFk f hf)]
        rw [sumBy_congr (fun f => f.fulfilledQuantity) hpt]
        exact hc
      · intro o ho
        rw [List.mem_append] at ho
        rcases ho with ho | ho
        · exact h.orderRange o ho
        · simp only [List.mem_singleton] at ho
          subst ho
          show 0 < quantity ∧ (0 : Int) ≤ 0 ∧ (0 : Int) ≤ quantity
          refine ⟨by omega, le_refl 0, by omega⟩
      · intro o ho
        rw [List.mem_append] at ho
        rcases ho with ho | ho
        · exact h.orderStatusDerived o ho
        · simp only [List.mem_singleton] at ho
          subst ho
          show Status.pendente = deriveStatus 0 quantity
          simp [deriveStatus]
      · intro o ho
        rw [List.mem_append] at ho
        rcases ho with ho | ho
        · exact h.orderHistorySum o ho
        · simp only [List.mem_singleton] at ho
          subst ho
          show sumBy db.fulfillments (fun f => f.orderId == db.orders.length + 1)
            (fun f => f.fulfilledQuantity) = (0 : Int)
          exact sumBy_eq_zero _ hfresh
    · exact absurd hok (by simp)

theorem inv_fulfill_order {db : Db} (h : DbInv db) {order_id : Nat}
    {quantity : Int} {fulfilled_by : String} {notes : Option String} {now : Nat}
    {fid : Nat} {db2 : Db}
    (hok : fulfill_order db order_id quantity fulfilled_by notes now = .ok (fid, db2)) :
    DbInv db2 := by
  unfold fulfill_order at hok
  split at hok
  · exact absurd hok (by simp)
  · rename_i o hfind
    split at hok
    · exact absurd hok (by simp)
    · split at hok
      · exact absurd hok (by simp)
      · split at hok
        · exact absurd hok (by simp)
        · rename_i hnex hq hneg
          simp only [Except.ok.injEq, Prod.mk.injEq] at hok
          obtain ⟨hfid, hdb⟩ := hok
          subst hdb
          have ho : o ∈ db.orders := List.mem_of_find?_eq_some hfind
          have hoid : o.id = order_id := by
            have := List.find?_some hfind
            simpa using this
          have hnodup : (db.orders.map Order.id).Nodup := by
            rw [h.orderIds]
            exact List.nodup_range' 1 db.orders.length
          have huniq : ∀ x ∈ db.orders, x.id = order_id → x = o := by
            intro x hx hxid
            exact List.inj_on_of_nodup_map hnodup hx ho (by rw [hxid, hoid])
          have hids : (db.orders.map (fulfillOrderRow order_id quantity now)).map
              Order.id = db.orders.map Order.id := by
            rw [List.map_map]
            have hcomp : (Order.id ∘ fulfillOrderRow order_id quantity now) =
                Order.id := funext fun r => fulfillOrderRow_id _ _ _ r
            rw [hcomp]
          have hOPL : ∀ oid2,
              orderProductL (db.orders.map (fulfillOrderRow order_id quantity now))
                oid2 = orderProductL db.orders oid2 :=
            fun oid2 => orderProductL_map (fun r => fulfillOrderRow_id _ _ _ r)
              (fun r => fulfillOrderRow_productId _ _ _ r) db.orders oid2
          have hOP : orderProductL db.orders order_id = some o.productId := by
            simp [orderProductL, hfind]
          have hFS : ∀ oid2,
              sumBy (db.fulfillments ++
                  [(⟨order_id, quantity, fulfilled_by, notes, now⟩ : Fulfillment)])
                (fun f => f.orderId == oid2) (fun f => f.fulfilledQuantity) =
              fulfillSumOrder db oid2 + (if order_id == oid2 then quantity else 0) := by
            intro oid2
            rw [sumBy_append_singleton]
            rfl
          have hFP : ∀ pid2,
              sumBy (db.fulfillments ++
                  [(⟨order_id, quantity, fulfilled_by, notes, now⟩ : Fulfillment)])
                (fun f => orderProductL
                  (db.orders.map (fulfillOrderRow order_id quantity now)) f.orderId ==
                  some pid2)
                (fun f => f.fulfilledQuantity) =
              fulfillSumProduct db pid2 +
                (if o.productId == pid2 then quantity else 0) := by
            intro pid2
            have hpt : ∀ f ∈ db.fulfillments ++
                [(⟨order_id, quantity, fulfilled_by, notes, now⟩ : Fulfillment)],
                (orderProductL
                  (db.orders.map (fulfillOrderRow order_id quantity now)) f.orderId ==
                  some pid2) =
                (orderProductL db.orders f.orderId == some pid2) := by
              intro f hf
              rw [hOPL]
            rw [sumBy_congr _ hpt, sumBy_append_singleton]
            congr 1
            show (if orderProductL db.orders order_id == some pid2 then quantity else 0)
              = (if o.productId == pid2 then quantity else 0)
            rw [hOP]
            rfl
          refine ⟨h.productIds, ?_, ?_, h.entriesFk, h.dispatchesFk, ?_, ?_, ?_,
            ?_, ?_, ?_⟩
          · show (db.orders.map (fulfillOrderRow order_id quantity now)).map
              Order.id = List.range' 1
              ((db.orders.map (fulfillOrderRow order_id quantity now)).length)
            rw [hids, List.length_map]
            exact h.orderIds
          · show (stockSub db.stock o.productId quantity now).map StockRow.productId =
              db.products.map Product.id
            rw [stockSub_map_productId, h.stockIds]
          · intro o2 ho2
            obtain ⟨x, hx, rfl⟩ := List.mem_map.mp ho2
            rw [fulfillOrderRow_productId]
            exact h.ordersFk x hx
          · intro f hf
            rw [List.mem_append] at hf
            rcases hf with hf | hf
            · rw [hids]
              exact h.fulfillmentsFk f hf
            · simp only [List.mem_singleton] at hf
              subst hf
              rw [hids]
              exact List.mem_map.mpr ⟨o, ho, hoid⟩
          · intro r2 hr2
            obtain ⟨r, hr, rfl⟩ := List.mem_map.mp hr2
            have hc := h.conservation r hr
            by_cases hrp : r.productId = o.productId
            · have hrow : subStockRow o.productId quantity now r =
                  { r with totalQuantity := r.totalQuantity - quantity,
                           lastUpdated := now } := by
                unfold subStockRow
                rw [if_pos (by simp [hrp])]
              rw [hrow]
              show r.totalQuantity - quantity =
                entriesSum db r.productId - dispatchesSum db r.productId -
                sumBy (db.fulfillments ++
                    [(⟨order_id, quantity, fulfilled_by, notes, now⟩ : Fulfillment)])
                  (fun f => orderProductL
                    (db.orders.map (fulfillOrderRow order_id quantity now)) f.orderId ==
                    some r.productId)
                  (fun f => f.fulfilledQuantity)
              rw [hFP r.productId]
              have hif : (o.productId == r.productId) = true := by simp [hrp]
              rw [hif, if_pos rfl]
              omega
            · have hrow : subStockRow o.productId quantity now r = r := by
                unfold subStockRow
                rw [if_neg (by simp [hrp])]
              rw [hrow]
              show r.totalQuantity =
                entriesSum db r.productId - dispatchesSum db r.productId -
                sumBy (db.fulfillments ++
                    [(⟨order_id, quantity, fulfilled_by, notes, now⟩ : Fulfillment)])
                  (fun f => orderProductL
                    (db.orders.map (fulfillOrderRow order_id quantity now)) f.orderId ==
                    some r.productId)
                  (fun f => f.fulfilledQuantity)
              rw [hFP r.productId]
              have hif : (o.productId == r.productId) = false := by
                simp only [beq_eq_false_iff_ne, ne_eq]
                exact fun hh => hrp hh.symm
              rw [hif]
              simp only [Bool.false_eq_true, if_false, add_zero]
              exact hc
          · intro o2 ho2
            obtain ⟨x, hx, rfl⟩ := List.mem_map.mp ho2
            by_cases hxid : x.id = order_id
            · have hxo : x = o := huniq x hx hxid
              subst hxo
              rw [fulfillOrderRow_of_eq quantity now hoid]
              obtain ⟨h1, h2, h3⟩ := h.orderRange x ho
              show 0 < x.requestedQuantity ∧ 0 ≤ x.deliveredQuantity + quantity ∧
                x.deliveredQuantity + quantity ≤ x.requestedQuantity
              refine ⟨h1, by omega, by omega⟩
            · rw [fulfillOrderRow_of_ne quantity now hxid]
              exact h.orderRange x hx
          · intro o2 ho2
            obtain ⟨x, hx, rfl⟩ := List.mem_map.mp ho2
            by_cases hxid : x.id = order_id
            · have hxo : x = o := huniq x hx hxid
              subst hxo
              rw [fulfillOrderRow_of_eq quantity now hoid]
              obtain ⟨h1, h2, h3⟩ := h.orderRange x ho
              show (if x.deliveredQuantity + quantity ≥ x.requestedQuantity
                then Status.atendido else Status.parcial) =
                deriveStatus (x.deliveredQuantity + quantity) x.requestedQuantity
              by_cases hge : x.deliveredQuantity + quantity ≥ x.requestedQuantity
              · rw [if_pos hge]
                unfold deriveStatus
                rw [if_neg (by omega), if_neg (by omega)]
              · rw [if_neg hge]
                unfold deriveStatus
                rw [if_neg (by omega), if_pos (by omega)]
            · rw [fulfillOrderRow_of_ne quantity now hxid]
              exact h.orderStatusDerived x hx
          · intro o2 ho2
            obtain ⟨x, hx, rfl⟩ := List.mem_map.mp ho2
            by_cases hxid : x.id = order_id
            · have hxo : x = o := huniq x hx hxid
              subst hxo
              rw [fulfillOrderRow_of_eq quantity now hoid]
              show sumBy (db.fulfillments ++
                  [(⟨order_id, quantity, fulfilled_by, notes, now⟩ : Fulfillment)])
                (fun f => f.orderId == x.id) (fun f => f.fulfilledQuantity) =
                x.deliveredQuantity + quantity
              rw [hFS x.id]
              have hif : (order_id == x.id) = true := by simp [hoid]
              rw [hif, if_pos rfl]
              have hsum := h.orderHistorySum x ho
              omega
            · rw [fulfillOrderRow_of_ne quantity now hxid]
              show sumBy (db.fulfillments ++
                  [(⟨order_id, quantity, fulfilled_by, notes, now⟩ : Fulfillment)])
                (fun f => f.orderId == x.id) (fun f => f.fulfilledQuantity) =
                x.deliveredQuantity
              rw [hFS x.id]
              have hif : (order_id == x.id) = false := by
                simp only [beq_eq_false_iff_ne, ne_eq]
                exact fun hh => hxid hh.symm
              rw [hif]
              simp only [Bool.false_eq_true, if_false, add_zero]
              exact h.orderHistorySum x hx

theorem inv_execStep {db : Db} (h : DbInv db) (op : Op) (now : Nat) :
    DbInv (execStep db op now) := by
  cases op with
  | createProduct e r n s d =>
    unfold execStep step
    cases hres : create_product db e r n s d now with
    | error err => simp only [hres, Except.map]; exact h
    | ok pr =>
      obtain ⟨pid, db2⟩ := pr
      simp only [hres, Except.map]
      exact inv_create_product h hres
  | addEntry s pid q note =>
    unfold execStep step
    cases hres : add_entry db s pid q note now with
    | error err => simp only [hres, Except.map]; exact h
    | ok pr =>
      obtain ⟨eid, db2⟩ := pr
      simp only [hres, Except.map]
      exact inv_add_entry h hres
  | addDispatch u pid q ob note =>
    unfold execStep step
    cases hres : add_dispatch db u pid q ob note now with
    | error err => simp only [hres, Except.map]; exact h
    | ok pr =>
      obtain ⟨did, db2⟩ := pr
      simp only [hres, Except.map]
      exact inv_add_dispatch h hres
  | createOrder st pid q rb notes =>
    unfold execStep step
    cases hres : create_order db st pid q rb notes now with
    | error err => simp only [hres, Except.map]; exact h
    | ok pr =>
      obtain ⟨oid, db2⟩ := pr
      simp only [hres, Except.map]
      exact inv_create_order h hres
  | fulfillOrder oid q fb notes =>
    unfold execStep step
    cases hres : fulfill_order db oid q fb notes now with
    | error err => simp only [hres, Except.map]; exact h
    | ok pr =>
      obtain ⟨fid, db2⟩ := pr
      simp only [hres, Except.map]
      exact inv_fulfill_order h hres

theorem inv_exec {db : Db} (h : DbInv db) (ops : List (Op × Nat)) :
    DbInv (exec db ops) := by
  induction ops generalizing db with
  | nil => exact h
  | cons p rest ih =>
    obtain ⟨op, now⟩ := p
    exact ih (inv_execStep h op now)

theorem inv_reachable (ops : List (Op × Nat)) : DbInv (exec initDb ops) :=
  inv_exec inv_initDb ops

theorem stockSub_of_no_match {stock : List StockRow} {pid : Nat} (q : Int)
    (now : Nat) (h : ∀ r ∈ stock, r.productId ≠ pid) :
    stockSub stock pid q now = stock := by
  unfold stockSub
  induction stock with
  | nil => rfl
  | cons r rest ih =>
    simp only [List.map_cons]
    rw [show subStockRow pid q now r = r from by
      unfold subStockRow; rw [if_neg (by simp [h r (by simp)])]]
    rw [ih (fun r2 h2 => h r2 (by simp [h2]))]

theorem stockTotal_stockSub (stock : List StockRow) (pid : Nat) (q : Int)
    (now : Nat) :
    sumBy (stockSub stock pid q now) (fun r => r.productId == pid)
      (fun r => r.totalQuantity) =
    sumBy stock (fun r => r.productId == pid) (fun r => r.totalQuantity) -
      q * (stock.countP (fun r => r.productId == pid)) := by
  unfold stockSub
  induction stock with
  | nil => simp [sumBy]
  | cons r rest ih =>
    by_cases hm : r.productId = pid
    · have hbeq : (r.productId == pid) = true := by simp [hm]
      have hrow : subStockRow pid q now r =
          { r with totalQuantity := r.totalQuantity - q, lastUpdated := now } := by
        unfold subStockRow; rw [if_pos hbeq]
      simp only [List.map_cons, sumBy, List.filter_cons, hrow, hbeq,
        List.countP_cons]
      simp only [sumBy] at ih
      simp only [List.map_cons, List.sum_cons, if_pos]
      rw [ih]
      push_cast
      ring
    · have hbeq : (r.productId == pid) = false := by simp [hm]
      have hrow : subStockRow pid q now r = r := by
        unfold subStockRow; rw [if_neg (by simp [hm])]
      simp only [List.map_cons, sumBy, List.filter_cons, hrow, hbeq,
        List.countP_cons]
      simp only [sumBy] at ih
      simp only [Bool.false_eq_true, if_false, add_zero]
      exact ih

/-- C1: for every order and every quantity strictly greater than
`remaining = requested_quantity - delivered_quantity`, `fulfill_order` fails
with the exceeds-pending error, the error carries (and its message states) the
maximum allowed quantity `remaining`, and the state — the order's
`delivered_quantity` and status, the fulfillment history, and the stock
level — is left unchanged (a failed transaction is rolled back). -/
theorem C1_exceeds_pending_rejected (db : Db) (order_id : Nat) (o : Order)
    (quantity : Int) (fulfilled_by : String) (notes : Option String) (now : Nat)
    (hfind : db.orders.find? (fun r => r.id == order_id) = some o)
    (hgt : quantity > o.requestedQuantity - o.deliveredQuantity) :
    fulfill_order db order_id quantity fulfilled_by notes now =
      .error (.exceedsPending (o.requestedQuantity - o.deliveredQuantity)) ∧
    (Err.exceedsPending (o.requestedQuantity - o.deliveredQuantity)).message =
      "Quantidade excede o pedido. Máximo: " ++
        toString (o.requestedQuantity - o.deliveredQuantity) ∧
    exec db [(Op.fulfillOrder order_id quantity fulfilled_by notes, now)] = db := by
  have herr : fulfill_order db order_id quantity fulfilled_by notes now =
      .error (.exceedsPending (o.requestedQuantity - o.deliveredQuantity)) := by
    unfold fulfill_order
    simp only [hfind]
    rw [if_pos (show o.deliveredQuantity + quantity > o.requestedQuantity by omega)]
  refine ⟨herr, rfl, ?_⟩
  show execStep db (Op.fulfillOrder order_id quantity fulfilled_by notes) now = db
  unfold execStep step
  simp only [herr, Except.map]

/-- Witness for C1: at `dbMid` the order has `requested = 10, delivered = 4`,
and a fulfillment of 7 > 6 is rejected with maximum 6, leaving the state. -/
theorem C1_exceeds_pending_rejected_witness :
    fulfill_order dbMid 1 7 "bob" none 6 = .error (.exceedsPending 6) ∧
    (Err.exceedsPending 6).message = "Quantidade excede o pedido. Máximo: 6" ∧
    exec dbMid [(Op.fulfillOrder 1 7 "bob" none, 6)] = dbMid :=
  C1_exceeds_pending_rejected dbMid 1
    ⟨1, "S1", 1, 10, 4, "alice", none, Status.parcial, 4, 5⟩ 7 "bob" none 6
    (by decide) (by decide)

/-- C5: for every order and every quantity ≤ 0, `fulfill_order` fails with the
invalid-quantity error (the `order_fulfillments.fulfilled_quantity > 0` CHECK)
and leaves the order, the fulfillment history and the stock level unchanged.
The `delivered ≤ requested` hypothesis (an invariant of every reachable
order) keeps the exceeds-pending test, which runs first, from firing. -/
theorem C5_nonpositive_quantity_rejected (db : Db) (order_id : Nat) (o : Order)
    (quantity : Int) (fulfilled_by : String) (notes : Option String) (now : Nat)
    (hfind : db.orders.find? (fun r => r.id == order_id) = some o)
    (hbound : o.deliveredQuantity ≤ o.requestedQuantity)
    (hq : quantity ≤ 0) :
    fulfill_order db order_id quantity fulfilled_by notes now =
      .error (.invalidQuantity "order_fulfillments") ∧
    exec db [(Op.fulfillOrder order_id quantity fulfilled_by notes, now)] = db := by
  have herr : fulfill_order db order_id quantity fulfilled_by notes now =
      .error (.invalidQuantity "order_fulfillments") := by
    unfold fulfill_order
    simp only [hfind]
    rw [if_neg (show ¬ o.deliveredQuantity + quantity > o.requestedQuantity by omega),
        if_pos hq]
  refine ⟨herr, ?_⟩
  show execStep db (Op.fulfillOrder order_id quantity fulfilled_by notes) now = db
  unfold execStep step
  simp only [herr, Except.map]

/-- Witness for C5: at `dbMid` a fulfillment of 0 is rejected as an invalid
quantity and the state is unchanged. -/
theorem C5_nonpositive_quantity_rejected_witness :
    fulfill_order dbMid 1 0 "bob" none 6 =
      .error (.invalidQuantity "order_fulfillments") ∧
    exec dbMid [(Op.fulfillOrder 1 0 "bob" none, 6)] = dbMid :=
  C5_nonpositive_quantity_rejected dbMid 1
    ⟨1, "S1", 1, 10, 4, "alice", none, Status.parcial, 4, 5⟩ 0 "bob" none 6
    (by decide) (by decide) (by decide)

/-- C7: `create_order` fails with the invalid-quantity error (the
`requested_quantity > 0` CHECK) and creates nothing when the requested
quantity is ≤ 0; for a positive quantity (and an existing product, per the
foreign key) it appends exactly one order with `delivered_quantity = 0` and
status `Pendente`. -/
theorem C7_create_order_validation (db : Db) (store : String) (product_id : Nat)
    (quantity : Int) (requested_by : String) (notes : Option String) (now : Nat) :
    (quantity ≤ 0 →
      create_order db store product_id quantity requested_by notes now =
        .error (.invalidQuantity "orders") ∧
      exec db [(Op.createOrder store product_id quantity requested_by notes, now)]
        = db) ∧
    (0 < quantity → productExists db product_id = true →
      create_order db store product_id quantity requested_by notes now =
        .ok (db.orders.length + 1,
          { db with orders := db.orders ++
              [⟨db.orders.length + 1, store, product_id, quantity, 0, requested_by,
                notes, Status.pendente, now, now⟩] })) := by
  constructor
  · intro hq
    have herr : create_order db store product_id quantity requested_by notes now =
        .error (.invalidQuantity "orders") := by
      unfold create_order
      rw [if_pos hq]
    refine ⟨herr, ?_⟩
    show execStep db (Op.createOrder store product_id quantity requested_by notes)
      now = db
    unfold execStep step
    simp only [herr, Except.map]
  · intro hq hex
    unfold create_order
    rw [if_neg (by omega), if_pos hex]

/-- Witness for C7: at `dbMid`, a request of 0 is rejected with the state
unchanged, and a request of 5 creates the pending order with 0 delivered. -/
theorem C7_create_order_validation_witness :
    (create_order dbMid "S1" 1 0 "alice" none 9 =
        .error (.invalidQuantity "orders") ∧
      exec dbMid [(Op.createOrder "S1" 1 0 "alice" none, 9)] = dbMid) ∧
    create_order dbMid "S1" 1 5 "alice" none 9 =
      .ok (2, { dbMid with orders := dbMid.orders ++
          [⟨2, "S1", 1, 5, 0, "alice", none, Status.pendente, 9, 9⟩] }) :=
  ⟨(C7_create_order_validation dbMid "S1" 1 0 "alice" none 9).1 (by decide),
   (C7_create_order_validation dbMid "S1" 1 5 "alice" none 9).2 (by decide)
     (by decide)⟩

/-- C8: a `add_dispatch` call whose unit name is not in the `units` registry
fails inside `_get_id`, before any write: no dispatch fact is recorded and
every stock level is unchanged. -/
theorem C8_unknown_unit_rejected (db : Db) (unit : String) (product_id : Nat)
    (quantity : Int) (out_by : String) (note : Option String) (now : Nat)
    (hunit : db.units.find? (fun row => row.2 == unit) = none) :
    add_dispatch db unit product_id quantity out_by note now =
      .error (.notFound "units" unit) ∧
    exec db [(Op.addDispatch unit product_id quantity out_by note, now)] = db := by
  have herr : add_dispatch db unit product_id quantity out_by note now =
      .error (.notFound "units" unit) := by
    unfold add_dispatch _get_id
    simp only [hunit]
  refine ⟨herr, ?_⟩
  show execStep db (Op.addDispatch unit product_id quantity out_by note) now = db
  unfold execStep step
  simp only [herr, Except.map]

/-- Witness for C8: "Loja X" is not a seeded unit, so the dispatch is
rejected and `dbMid` is unchanged. -/
theorem C8_unknown_unit_rejected_witness :
    add_dispatch dbMid "Loja X" 1 5 "bob" none 9 =
      .error (.notFound "units" "Loja X") ∧
    exec dbMid [(Op.addDispatch "Loja X" 1 5 "bob" none, 9)] = dbMid :=
  C8_unknown_unit_rejected dbMid "Loja X" 1 5 "bob" none 9 (by decide)

/-- C10: a successful `create_order` writes only the `orders` table: the
stock list, and hence every product's stock total, is exactly as before (no
reservation at order time). -/
theorem C10_create_order_preserves_stock (db : Db) (store : String)
    (product_id : Nat) (quantity : Int) (requested_by : String)
    (notes : Option String) (now : Nat) (oid : Nat) (db2 : Db)
    (hok : create_order db store product_id quantity requested_by notes now =
      .ok (oid, db2)) :
    db2.stock = db.stock ∧ stockTotal db2 = stockTotal db := by
  unfold create_order at hok
  split at hok
  · exact absurd hok (by simp)
  · split at hok
    · simp only [Except.ok.injEq, Prod.mk.injEq] at hok
      obtain ⟨h1, hdb⟩ := hok
      subst hdb
      exact ⟨rfl, rfl⟩
    · exact absurd hok (by simp)

/-- Witness for C10: creating an order of 3 at `dbMid` leaves the stock list
untouched. -/
theorem C10_create_order_preserves_stock_witness :
    ({ dbMid with orders := dbMid.orders ++
        [⟨2, "S2", 1, 3, 0, "alice", none, Status.pendente, 9, 9⟩] } : Db).stock
      = dbMid.stock ∧
    stockTotal { dbMid with orders := dbMid.orders ++
        [⟨2, "S2", 1, 3, 0, "alice", none, Status.pendente, 9, 9⟩] } =
      stockTotal dbMid :=
  C10_create_order_preserves_stock dbMid "S2" 1 3 "alice" none 9 2 _ rfl

/-- C2: for every order and every quantity with
`0 < quantity ≤ remaining`, `fulfill_order` succeeds, returning the id of the
one appended fulfillment fact, and in its single committed state the
fulfillment history has exactly that fact appended, the order's
`delivered_quantity` grows by the quantity, its status becomes `Parcial`
when still short of the request and `Atendido` when it reaches it,
`updated_at` is set to now, and the product's stock total drops by the
quantity.  (The `0 ≤ delivered` and unique-stock-row hypotheses are
invariants of every reachable state.) -/
theorem C2_fulfill_success (db : Db) (order_id : Nat) (o : Order)
    (quantity : Int) (fulfilled_by : String) (notes : Option String) (now : Nat)
    (hfind : db.orders.find? (fun r => r.id == order_id) = some o)
    (hdel : 0 ≤ o.deliveredQuantity)
    (hq : 0 < quantity)
    (hrem : quantity ≤ o.requestedQuantity - o.deliveredQuantity)
    (hone : db.stock.countP (fun r => r.productId == o.productId) = 1) :
    fulfill_order db order_id quantity fulfilled_by notes now =
      .ok (db.fulfillments.length + 1,
        execStep db (Op.fulfillOrder order_id quantity fulfilled_by notes) now) ∧
    (execStep db (Op.fulfillOrder order_id quantity fulfilled_by notes)
        now).fulfillments =
      db.fulfillments ++ [⟨order_id, quantity, fulfilled_by, notes, now⟩] ∧
    (execStep db (Op.fulfillOrder order_id quantity fulfilled_by notes)
        now).orders.find? (fun r => r.id == order_id) =
      some (fulfillOrderRow order_id quantity now o) ∧
    (fulfillOrderRow order_id quantity now o).deliveredQuantity =
      o.deliveredQuantity + quantity ∧
    (fulfillOrderRow order_id quantity now o).updatedAt = now ∧
    (o.deliveredQuantity + quantity < o.requestedQuantity →
      (fulfillOrderRow order_id quantity now o).status = Status.parcial) ∧
    (o.deliveredQuantity + quantity = o.requestedQuantity →
      (fulfillOrderRow order_id quantity now o).status = Status.atendido) ∧
    stockTotal (execStep db (Op.fulfillOrder order_id quantity fulfilled_by notes)
        now) o.productId =
      stockTotal db o.productId - quantity := by
  have hoid : o.id = order_id := by
    have := List.find?_some hfind
    simpa using this
  have hok : fulfill_order db order_id quantity fulfilled_by notes now =
      .ok (db.fulfillments.length + 1,
        { db with
            fulfillments := db.fulfillments ++
              [⟨order_id, quantity, fulfilled_by, notes, now⟩],
            orders := db.orders.map (fulfillOrderRow order_id quantity now),
            stock := stockSub db.stock o.productId quantity now }) := by
    unfold fulfill_order
    simp only [hfind]
    rw [if_neg (by omega), if_neg (by omega), if_neg (by omega)]
  have hstep : execStep db (Op.fulfillOrder order_id quantity fulfilled_by notes)
      now =
      { db with
          fulfillments := db.fulfillments ++
            [⟨order_id, quantity, fulfilled_by, notes, now⟩],
          orders := db.orders.map (fulfillOrderRow order_id quantity now),
          stock := stockSub db.stock o.productId quantity now } := by
    unfold execStep step
    simp only [hok, Except.map]
  refine ⟨?_, ?_, ?_, ?_, ?_, ?_, ?_, ?_⟩
  · rw [hstep]
    exact hok
  · rw [hstep]
  · rw [hstep]
    show (db.orders.map (fulfillOrderRow order_id quantity now)).find?
      (fun r => r.id == order_id) = some (fulfillOrderRow order_id quantity now o)
    rw [List.find?_map]
    have hp : ((fun r : Order => r.id == order_id) ∘
        fulfillOrderRow order_id quantity now) =
        fun r : Order => r.id == order_id := by
      funext r
      simp [Function.comp, fulfillOrderRow_id]
    rw [hp, hfind, Option.map_some']
  · rw [fulfillOrderRow_of_eq quantity now hoid]
  · rw [fulfillOrderRow_of_eq quantity now hoid]
  · intro hlt
    rw [fulfillOrderRow_of_eq quantity now hoid]
    show (if o.deliveredQuantity + quantity ≥ o.requestedQuantity
      then Status.atendido else Status.parcial) = Status.parcial
    rw [if_neg (by omega)]
  · intro heq2
    rw [fulfillOrderRow_of_eq quantity now hoid]
    show (if o.deliveredQuantity + quantity ≥ o.requestedQuantity
      then Status.atendido else Status.parcial) = Status.atendido
    rw [if_pos (by omega)]
  · rw [hstep]
    show sumBy (stockSub db.stock o.productId quantity now)
      (fun r => r.productId == o.productId) (fun r => r.totalQuantity) =
      stockTotal db o.productId - quantity
    rw [stockTotal_stockSub, hone]
    show stockTotal db o.productId - quantity * ((1 : Nat) : Int) =
      stockTotal db o.productId - quantity
    simp

/-- Witness for C2 at `dbMid` (spec §8 scenario C): fulfilling the remaining
6 of the order succeeds, appends one fact, reaches `delivered = 10`,
status `Atendido`, and drops the stock total by 6. -/
theorem C2_fulfill_success_witness :
    fulfill_order dbMid 1 6 "bob" none 6 =
      .ok (2, execStep dbMid (Op.fulfillOrder 1 6 "bob" none) 6) ∧
    (execStep dbMid (Op.fulfillOrder 1 6 "bob" none) 6).fulfillments =
      dbMid.fulfillments ++ [⟨1, 6, "bob", none, 6⟩] ∧
    (execStep dbMid (Op.fulfillOrder 1 6 "bob" none) 6).orders.find?
        (fun r => r.id == 1) =
      some (fulfillOrderRow 1 6 6
        ⟨1, "S1", 1, 10, 4, "alice", none, Status.parcial, 4, 5⟩) ∧
    (fulfillOrderRow 1 6 6
        ⟨1, "S1", 1, 10, 4, "alice", none, Status.parcial, 4, 5⟩).deliveredQuantity
      = 4 + 6 ∧
    (fulfillOrderRow 1 6 6
        ⟨1, "S1", 1, 10, 4, "alice", none, Status.parcial, 4, 5⟩).updatedAt = 6 ∧
    ((4 : Int) + 6 < 10 →
      (fulfillOrderRow 1 6 6
        ⟨1, "S1", 1, 10, 4, "alice", none, Status.parcial, 4, 5⟩).status =
        Status.parcial) ∧
    ((4 : Int) + 6 = 10 →
      (fulfillOrderRow 1 6 6
        ⟨1, "S1", 1, 10, 4, "alice", none, Status.parcial, 4, 5⟩).status =
        Status.atendido) ∧
    stockTotal (execStep dbMid (Op.fulfillOrder 1 6 "bob" none) 6) 1 =
      stockTotal dbMid 1 - 6 :=
  C2_fulfill_success dbMid 1 ⟨1, "S1", 1, 10, 4, "alice", none, Status.parcial, 4, 5⟩
    6 "bob" none 6 (by decide) (by decide) (by decide) (by decide) (by decide)

/-- C3: in every state reachable from the seeded initial state by any finite
sequence of calls, every product's stock row carries exactly the sum of its
entry quantities minus its dispatch quantities minus the fulfillment
quantities charged to it through its orders. -/
theorem C3_stock_conservation (ops : List (Op × Nat)) (p : Product) (r : StockRow)
    (hp : p ∈ (exec initDb ops).products) (hr : r ∈ (exec initDb ops).stock)
    (hpid : r.productId = p.id) :
    r.totalQuantity = entriesSum (exec initDb ops) p.id -
      dispatchesSum (exec initDb ops) p.id -
      fulfillSumProduct (exec initDb ops) p.id := by
  have h := inv_reachable ops
  have hc := h.conservation r hr
  rw [hpid] at hc
  exact hc

/-- Witness for C3: after create / failed entry / dispatch 20 / order /
fulfill 4, the single stock row reads -24 = 0 - 20 - 4 (no entry ever
commits, and the ledger goes negative as spec §9 allows). -/
theorem C3_stock_conservation_witness :
    (⟨1, -24, 5⟩ : StockRow).totalQuantity =
      entriesSum (exec initDb opsMid) 1 - dispatchesSum (exec initDb opsMid) 1 -
        fulfillSumProduct (exec initDb opsMid) 1 :=
  C3_stock_conservation opsMid
    ⟨1, some "123", some "R1", "Prod X", none, 1, 1, 1⟩ ⟨1, -24, 5⟩
    (by decide) (by decide) rfl

/-- C4: in every reachable state, every order satisfies
`0 ≤ delivered_quantity ≤ requested_quantity`, its status equals the value
derived from `delivered_quantity` by the spec §3 table, and the sum of its
recorded fulfillment quantities equals its `delivered_quantity`. -/
theorem C4_order_invariants (ops : List (Op × Nat)) (o : Order)
    (ho : o ∈ (exec initDb ops).orders) :
    0 ≤ o.deliveredQuantity ∧ o.deliveredQuantity ≤ o.requestedQuantity ∧
    o.status = deriveStatus o.deliveredQuantity o.requestedQuantity ∧
    fulfillSumOrder (exec initDb ops) o.id = o.deliveredQuantity := by
  have h := inv_reachable ops
  obtain ⟨h1, h2, h3⟩ := h.orderRange o ho
  exact ⟨h2, h3, h.orderStatusDerived o ho, h.orderHistorySum o ho⟩

/-- Witness for C4 at the partially fulfilled order of `opsMid`:
`0 ≤ 4 ≤ 10`, status `Parcial` as derived, history sums to 4. -/
theorem C4_order_invariants_witness :
    (0 : Int) ≤ 4 ∧ (4 : Int) ≤ 10 ∧
    Status.parcial = deriveStatus 4 10 ∧
    fulfillSumOrder (exec initDb opsMid) 1 = 4 :=
  C4_order_invariants opsMid
    ⟨1, "S1", 1, 10, 4, "alice", none, Status.parcial, 4, 5⟩ (by decide)

/-- C6: the claim says resolve-or-create returns the existing product's id
when a product with the given `ean` or `reference` already exists.  The code
cannot do that: in `database_config_render.create_product` the duplicate
INSERT aborts the open transaction and the except-branch re-query runs on
that same aborted transaction with no rollback, so the call raises
InFailedSqlTransaction instead — contradicting the function's own docstring
"se existir, retorna o id existente".  This theorem evaluates the code at
the failing input: `dbMid` already holds product 1 with `ean = "123"`, the
sector "Pet" is valid, and the call fails (changing nothing, the transaction
being rolled back) rather than returning id 1. -/
theorem C6_duplicate_resolution_raises :
    Render.create_product dbMid (some "123") none "Other" "Pet" none 7 =
      .error Err.inFailedTransaction := rfl

/-- Counterexample for C9 as stated: the claim's RecordEntry conjunct — that
an entry on a product with no stock row creates the missing StockLevel row
and credits it — is false of the code.  At `dbNoStock` (product 1 exists,
stock table empty) an entry of 5 does not create the row `(1, 5)`: the
`ON CONFLICT (product_id)` upsert names no unique arbiter index in this
module's schema, so the statement is rejected (42P10), the transaction rolls
back, and the state is unchanged. -/
theorem C9_entry_never_credits_counterexample :
    add_entry dbNoStock "Acme" 1 5 none 9 = .error Err.onConflictNoArbiter ∧
    exec dbNoStock [(Op.addEntry "Acme" 1 5 none, 9)] = dbNoStock :=
  ⟨rfl, rfl⟩

/-- C9 (amended): on a state whose stock table has no row for a product,
`add_dispatch` and `fulfill_order` still succeed and record their fact while
every stock row is left unchanged (the ledger UPDATE matches zero rows and is
silently dropped), whereas `add_entry` always fails — its
`ON CONFLICT (product_id)` upsert has no unique arbiter index to match — and
rolls back, so it neither creates nor credits the missing row. -/
theorem C9_missing_stock_row (db : Db) (pid : Nat)
    (hnorow : ∀ r ∈ db.stock, r.productId ≠ pid) :
    (∀ unit urow (quantity : Int) out_by note (now : Nat),
      db.units.find? (fun row => row.2 == unit) = some urow →
      0 < quantity →
      productExists db pid = true →
      add_dispatch db unit pid quantity out_by note now =
        .ok (db.dispatches.length + 1,
          execStep db (Op.addDispatch unit pid quantity out_by note) now) ∧
      (execStep db (Op.addDispatch unit pid quantity out_by note) now).dispatches =
        db.dispatches ++ [⟨now, urow.1, pid, quantity, out_by, note⟩] ∧
      (execStep db (Op.addDispatch unit pid quantity out_by note) now).stock =
        db.stock) ∧
    (∀ order_id o (quantity : Int) fulfilled_by notes (now : Nat),
      db.orders.find? (fun r => r.id == order_id) = some o →
      o.productId = pid →
      0 ≤ o.deliveredQuantity → 0 < quantity →
      quantity ≤ o.requestedQuantity - o.deliveredQuantity →
      fulfill_order db order_id quantity fulfilled_by notes now =
        .ok (db.fulfillments.length + 1,
          execStep db (Op.fulfillOrder order_id quantity fulfilled_by notes) now) ∧
      (execStep db (Op.fulfillOrder order_id quantity fulfilled_by notes)
          now).fulfillments =
        db.fulfillments ++ [⟨order_id, quantity, fulfilled_by, notes, now⟩] ∧
      (execStep db (Op.fulfillOrder order_id quantity fulfilled_by notes)
          now).stock = db.stock) ∧
    (∀ supplier (quantity : Int) note (now : Nat),
      0 < quantity →
      productExists db pid = true →
      add_entry db supplier pid quantity note now =
        .error .onConflictNoArbiter ∧
      exec db [(Op.addEntry supplier pid quantity note, now)] = db) := by
  refine ⟨?_, ?_, ?_⟩
  · intro unit urow quantity out_by note now hu hq hex
    have hok : add_dispatch db unit pid quantity out_by note now =
        .ok (db.dispatches.length + 1,
          { db with
              dispatches := db.dispatches ++
                [⟨now, urow.1, pid, quantity, out_by, note⟩],
              stock := db.stock }) := by
      unfold add_dispatch _get_id
      simp only [hu]
      rw [if_neg (by omega), if_pos hex,
        stockSub_of_no_match quantity now hnorow]
    have hstep : execStep db (Op.addDispatch unit pid quantity out_by note) now =
        { db with
            dispatches := db.dispatches ++
              [⟨now, urow.1, pid, quantity, out_by, note⟩],
            stock := db.stock } := by
      unfold execStep step
      simp only [hok, Except.map]
    refine ⟨?_, ?_, ?_⟩
    · rw [hstep]; exact hok
    · rw [hstep]
    · rw [hstep]
  · intro order_id o quantity fulfilled_by notes now hfind hopid hdel hq hrem
    have hok : fulfill_order db order_id quantity fulfilled_by notes now =
        .ok (db.fulfillments.length + 1,
          { db with
              fulfillments := db.fulfillments ++
                [⟨order_id, quantity, fulfilled_by, notes, now⟩],
              orders := db.orders.map (fulfillOrderRow order_id quantity now),
              stock := db.stock }) := by
      unfold fulfill_order
      simp only [hfind]
      rw [if_neg (by omega), if_neg (by omega), if_neg (by omega), hopid,
        stockSub_of_no_match quantity now hnorow]
    have hstep : execStep db (Op.fulfillOrder order_id quantity fulfilled_by notes)
        now =
        { db with
            fulfillments := db.fulfillments ++
              [⟨order_id, quantity, fulfilled_by, notes, now⟩],
            orders := db.orders.map (fulfillOrderRow order_id quantity now),
            stock := db.stock } := by
      unfold execStep step
      simp only [hok, Except.map]
    refine ⟨?_, ?_, ?_⟩
    · rw [hstep]; exact hok
    · rw [hstep]
    · rw [hstep]
  · intro supplier quantity note now hq hex
    have herr : add_entry db supplier pid quantity note now =
        .error .onConflictNoArbiter := by
      unfold add_entry
      rw [if_neg (by omega), if_pos hex]
    refine ⟨herr, ?_⟩
    show execStep db (Op.addEntry supplier pid quantity note) now = db
    unfold execStep step
    simp only [herr, Except.map]

/-- Witness for C9 at `dbNoStock` (product 1 exists, no stock row): dispatch
and fulfillment succeed leaving the empty stock table empty; the entry of 5
fails with the 42P10 error and changes nothing. -/
theorem C9_missing_stock_row_witness :
    (add_dispatch dbNoStock "MDC - CD" 1 5 "bob" none 9 =
        .ok (2, execStep dbNoStock (Op.addDispatch "MDC - CD" 1 5 "bob" none) 9) ∧
      (execStep dbNoStock (Op.addDispatch "MDC - CD" 1 5 "bob" none) 9).dispatches =
        dbNoStock.dispatches ++ [⟨9, 7, 1, 5, "bob", none⟩] ∧
      (execStep dbNoStock (Op.addDispatch "MDC - CD" 1 5 "bob" none) 9).stock =
        dbNoStock.stock) ∧
    (fulfill_order dbNoStock 1 6 "bob" none 9 =
        .ok (2, execStep dbNoStock (Op.fulfillOrder 1 6 "bob" none) 9) ∧
      (execStep dbNoStock (Op.fulfillOrder 1 6 "bob" none) 9).fulfillments =
        dbNoStock.fulfillments ++ [⟨1, 6, "bob", none, 9⟩] ∧
      (execStep dbNoStock (Op.fulfillOrder 1 6 "bob" none) 9).stock =
        dbNoStock.stock) ∧
    (add_entry dbNoStock "Acme" 1 5 none 9 = .error Err.onConflictNoArbiter ∧
      exec dbNoStock [(Op.addEntry "Acme" 1 5 none, 9)] = dbNoStock) := by
  have h := C9_missing_stock_row dbNoStock 1 (by decide)
  exact ⟨h.1 "MDC - CD" (7, "MDC - CD") 5 "bob" none 9 (by decide) (by decide)
      (by decide),
    h.2.1 1 ⟨1, "S1", 1, 10, 4, "alice", none, Status.parcial, 4, 5⟩ 6 "bob" none 9
      (by decide) rfl (by decide) (by decide) (by decide),
    h.2.2 "Acme" 5 none 9 (by decide) (by decide)⟩
